import Mathlib

/-!
Verification development for the poll/vote core of the polling web
application (validators, poll/vote service, repositories).

The TypeScript source is embedded shallowly:
  * rows of the `polls`, `poll_options` and `votes` tables are structures,
    the database is a `DBState` record of row lists;
  * each repository/service method becomes a Lean function; methods that
    can fail return `Except ServiceError` paired with the database state
    after the call (writes performed before a failure persist, as in the
    source, which has no transactions);
  * JavaScript `Date` values are modelled by a civil-calendar record
    (`JSDate`) whose ordering is the epoch-millisecond order, so that
    `setFullYear(getFullYear() + 1)` (including day-overflow
    normalisation) is faithful;
  * percentages are rationals (the source divides JS numbers; operands
    here stay small and exact).
-/

namespace PollApp

/-! ## Data model (types/database.ts, supabase schema) -/

/-- Row of the `polls` table (fields used by the service layer). -/
structure Poll where
  id : String
  title : String
  description : Option String
  created_by : String
  expires_at : Option Int
  allow_multiple_votes : Bool
  is_anonymous : Bool
  is_active : Bool
  updated_at : Int
deriving DecidableEq, Repr

/-- Row of the `poll_options` table. -/
structure PollOption where
  id : String
  poll_id : String
  text : String
  order_index : Nat
deriving DecidableEq, Repr

/-- Row of the `votes` table. -/
structure Vote where
  poll_id : String
  option_id : String
  user_id : String
  created_at : Int
deriving DecidableEq, Repr

/-- The backing store: the three tables the poll/vote core touches. -/
structure DBState where
  polls : List Poll
  poll_options : List PollOption
  votes : List Vote
deriving DecidableEq, Repr

/-! ## JavaScript dates

A `JSDate` is a civil date plus milliseconds within the day.  `toMs`
converts to epoch milliseconds with the standard days-from-civil
computation; it is linear in the day field, which reproduces the way
JavaScript normalises an out-of-range day (for instance February 29 of a
non-leap year becoming March 1) after `setFullYear`. -/

/-- Civil date with time of day, standing for a JavaScript `Date`. -/
structure JSDate where
  year : Int
  month : Int
  day : Int
  msOfDay : Int
deriving DecidableEq, Repr

/-- Days from 1970-01-01 for a civil date (months 1..12). -/
def daysFromCivil (y m d : Int) : Int :=
  let yAdj := if m ≤ 2 then y - 1 else y
  let era := (if 0 ≤ yAdj then yAdj else yAdj - 399) / 400
  let yoe := yAdj - era * 400
  let mp := (m + 9) % 12
  let doy := (153 * mp + 2) / 5 + d - 1
  let doe := yoe * 365 + yoe / 4 - yoe / 100 + doy
  era * 146097 + doe - 719468

/-- Epoch milliseconds of a `JSDate`; JS `Date` comparisons compare this. -/
def JSDate.toMs (dt : JSDate) : Int :=
  daysFromCivil dt.year dt.month dt.day * 86400000 + dt.msOfDay

/-- JS `setFullYear(getFullYear() + 1)`: the year field is bumped and the
date is re-normalised through the calendar (done lazily by `toMs`). -/
def JSDate.addOneYear (dt : JSDate) : JSDate :=
  { dt with year := dt.year + 1 }

/-! ## JavaScript string primitives

Structural implementations of the string methods the validators call, so
that every concrete instance evaluates inside the kernel. -/

/-- Whitespace class of the JS `trim` (the characters that occur in this
development). -/
def jsWhitespace (c : Char) : Bool :=
  c == ' ' || c == '\t' || c == '\n' || c == '\r'

/-- Drops leading and trailing whitespace of a character list. -/
def trimCharList (cs : List Char) : List Char :=
  ((cs.dropWhile jsWhitespace).reverse.dropWhile jsWhitespace).reverse

/-- JS `String.prototype.trim`. -/
def jsTrim (s : String) : String :=
  String.mk (trimCharList s.data)

/-- JS `String.prototype.toLowerCase` (on the alphabet used here). -/
def jsToLower (s : String) : String :=
  String.mk (s.data.map Char.toLower)

/-- Strings of length zero are exactly the empty string. -/
theorem string_length_eq_zero_iff (s : String) : s.length = 0 ↔ s = "" := by
  constructor
  · intro h
    cases s with
    | mk d =>
      cases d with
      | nil => rfl
      | cons a t => simp [String.length] at h
  · intro h
    rw [h]
    rfl

/-! ## Validators (lib/validators/poll-validators.ts)

Each validator is embedded as the list of error messages it accumulates;
the source's `isValid` is emptiness of that list. -/

/-- Character class `[0-9a-f]` with the `i` flag. -/
def hexDigit (c : Char) : Bool :=
  c.isDigit || (('a' ≤ c.toLower) && (c.toLower ≤ 'f'))

/-- Test of the UUID regular expression used by the validators:
`^[0-9a-f]{8}-[0-9a-f]{4}-[1-5][0-9a-f]{3}-[89ab][0-9a-f]{3}-[0-9a-f]{12}$`
with the case-insensitive flag. -/
def uuidRegexTest (s : String) : Bool :=
  let cs := s.toList
  cs.length == 36 &&
  (List.range 36).all (fun i =>
    let c := cs.getD i ' '
    if i == 8 || i == 13 || i == 18 || i == 23 then c == '-'
    else if i == 14 then ('1' ≤ c) && (c ≤ '5')
    else if i == 19 then c == '8' || c == '9' || c.toLower == 'a' || c.toLower == 'b'
    else hexDigit c)

/-- PollValidators.validateTitle. -/
def validateTitle (title : Option String) : List String :=
  match title with
  | none => ["Title is required"]
  | some t =>
    if t.isEmpty then ["Title is required"]
    else if (jsTrim t).isEmpty then ["Title cannot be empty"]
    else if 200 < (jsTrim t).length then ["Title cannot exceed 200 characters"]
    else []

/-- PollValidators.validateDescription. -/
def validateDescription (description : Option String) : List String :=
  match description with
  | none => []
  | some d =>
    if !d.isEmpty && 1000 < (jsTrim d).length then
      ["Description cannot exceed 1000 characters"]
    else []

/-- PollValidators.validateOptions.  `AppConfig.poll` fixes
`minOptions = 2` and `maxOptions = 10`; the per-option cap is the literal
200.  The JS `Set` size is the length of `List.dedup`. -/
def validateOptionsErrors (options : List String) : List String :=
  let validOptions := options.filter (fun o => !(jsTrim o).isEmpty)
  (if validOptions.length < 2 then ["At least 2 options are required"] else [])
  ++ (if 10 < validOptions.length then ["Maximum 10 options allowed"] else [])
  ++ (if (validOptions.map (fun o => jsToLower (jsTrim o))).dedup.length ≠ validOptions.length then
        ["Duplicate options are not allowed"] else [])
  ++ validOptions.filterMap (fun o =>
        if (jsTrim o).length = 0 then some "Option cannot be empty"
        else if 200 < (jsTrim o).length then some "Option cannot exceed 200 characters"
        else none)

/-- The `isValid` flag of validateOptions. -/
def validateOptionsIsValid (options : List String) : Bool :=
  (validateOptionsErrors options).isEmpty

/-- PollValidators.validateExpirationDate; `now` is the instant the
validator reads the clock. -/
def validateExpirationDateErrors (expiresAt : Option JSDate) (now : JSDate) : List String :=
  match expiresAt with
  | none => []
  | some e =>
    (if e.toMs ≤ now.toMs then ["Expiration date must be in the future"] else [])
    ++ (if now.addOneYear.toMs < e.toMs then
          ["Expiration date cannot be more than 1 year in the future"] else [])

/-- The `isValid` flag of validateExpirationDate. -/
def validateExpirationDateIsValid (expiresAt : Option JSDate) (now : JSDate) : Bool :=
  (validateExpirationDateErrors expiresAt now).isEmpty

/-- PollValidators.validateVoteSubmission. -/
def validateVoteSubmission (optionIds : List String) (allowMultipleVotes : Bool) : List String :=
  if optionIds.length = 0 then ["At least one option must be selected"]
  else
    (if optionIds.dedup.length ≠ optionIds.length then
       ["Duplicate option selections are not allowed"] else [])
    ++ (if !allowMultipleVotes && decide (1 < optionIds.length) then
          ["This poll only allows one vote per user"] else [])
    ++ optionIds.filterMap (fun oid =>
          if oid.isEmpty then some "Option ID is invalid"
          else if !uuidRegexTest oid then some "Option ID format is invalid"
          else none)

/-! ## Error taxonomy (lib/errors/custom-errors.ts)

Only the categories the modelled operations raise.  In the source,
`PollInactiveError` and `PollExpiredError` are subclasses of
`BusinessLogicError` (business-rule category), while `ValidationError`
is a distinct category; `invalidOptionIds` stands for the
`BusinessLogicError` built from the list of offending ids. -/

/-- Errors raised by the embedded service/repository operations. -/
inductive ServiceError where
  | pollNotFound (pollId : String)
  | unauthorized (action : String)
  | pollInactive (pollId : String)
  | pollExpired (pollId : String)
  | validationFailed (errors : List String)
  | invalidOptionIds (ids : List String)
  | dataAccess (op : String)
deriving DecidableEq, Repr

/-- Deletes the polls matching `q` together with their options and votes
(the storage layer cascades option and vote rows on poll deletion). -/
def DBState.deletePollsWhere (s : DBState) (q : Poll → Bool) : DBState :=
  let removedIds := (s.polls.filter q).map (fun p => p.id)
  { polls := s.polls.filter (fun p => !q p),
    poll_options := s.poll_options.filter (fun o => !removedIds.contains o.poll_id),
    votes := s.votes.filter (fun v => !removedIds.contains v.poll_id) }

/-! ## Repositories (lib/repositories/poll-repository.ts)

Database-generated values (fresh row ids, the clock) are passed as
arguments; a Boolean oracle stands for whether an insert that the
environment may refuse fails. -/

/-- PollRepository.findWithOptions: the poll row plus its option rows. -/
def PollRepository.findWithOptions (s : DBState) (pollId : String) :
    Option (Poll × List PollOption) :=
  match s.polls.find? (fun p => p.id == pollId) with
  | none => none
  | some p => some (p, s.poll_options.filter (fun o => o.poll_id == pollId))

/-- PollRepository.createWithOptions: inserts the poll row, then the
option rows (with `poll_id` overwritten by the new poll id).  When the
option insert fails the catch block only logs and rethrows: the poll row
stays in the table. -/
def PollRepository.createWithOptions (s : DBState) (pollData : Poll)
    (optionsData : List PollOption) (optionsInsertFails : Bool) :
    Except ServiceError (Poll × List PollOption) × DBState :=
  let s1 := { s with polls := s.polls ++ [pollData] }
  if optionsInsertFails then
    (.error (.dataAccess "createOptions"), s1)
  else
    let opts := optionsData.map (fun o => { o with poll_id := pollData.id })
    (.ok (pollData, opts), { s1 with poll_options := s1.poll_options ++ opts })

/-- PollRepository.updateStatus: sets `is_active` and `updated_at` on the
rows matching the id and returns the updated row (`.single()`). -/
def PollRepository.updateStatus (s : DBState) (pollId : String)
    (isActive : Bool) (now : Int) : Except ServiceError Poll × DBState :=
  let newPolls := s.polls.map (fun p =>
    if p.id == pollId then { p with is_active := isActive, updated_at := now } else p)
  let s1 := { s with polls := newPolls }
  match newPolls.find? (fun p => p.id == pollId) with
  | some r => (.ok r, s1)
  | none => (.error (.dataAccess "updateStatus"), s1)

/-- VoteRepository.submitVotes: `deleteBy(poll_id, pollId)` — every vote
row of the poll, for any voter — then `deleteBy(user_id, userId)` — every
vote row of the voter, on any poll — then one insert per option id.
Returns the inserted rows. -/
def VoteRepository.submitVotes (s : DBState) (pollId userId : String)
    (optionIds : List String) (now : Int) : List Vote × DBState :=
  let afterPollDelete := s.votes.filter (fun v => v.poll_id != pollId)
  let afterUserDelete := afterPollDelete.filter (fun v => v.user_id != userId)
  let newVotes := optionIds.map (fun oid =>
    { poll_id := pollId, option_id := oid, user_id := userId, created_at := now : Vote })
  (newVotes, { s with votes := afterUserDelete ++ newVotes })

/-- VoteRepository.getUserVotes: `findBy(poll_id)` then a client-side
filter on `user_id`. -/
def VoteRepository.getUserVotes (s : DBState) (pollId userId : String) : List Vote :=
  (s.votes.filter (fun v => v.poll_id == pollId)).filter (fun v => v.user_id == userId)

/-- VoteRepository.getUniqueVoterCount: `user_id` of the poll's vote rows
collected into a `Set`, whose size is the dedup length. -/
def VoteRepository.getUniqueVoterCount (s : DBState) (pollId : String) : Nat :=
  ((s.votes.filter (fun v => v.poll_id == pollId)).map (fun v => v.user_id)).dedup.length

/-! ## Statistics (PollRepository.getStatistics) -/

/-- One entry of the `optionStats` array. -/
structure OptionStat where
  optionId : String
  text : String
  votes : Nat
  percentage : ℚ
deriving DecidableEq, Repr

/-- Result record of getStatistics. -/
structure PollStatistics where
  totalVotes : Nat
  uniqueVoters : Nat
  optionStats : List OptionStat
deriving DecidableEq, Repr

/-- PollRepository.getStatistics.  `voteStats` is the poll's vote rows
inner-joined to `poll_options` on the option-id foreign key;
`uniqueVotersData` is the plain list of the poll's vote rows, and the
source takes its `length` for `uniqueVoters` (the row count — the set of
distinct ids is never formed here). -/
def PollRepository.getStatistics (s : DBState) (pollId : String) :
    Except ServiceError PollStatistics :=
  match PollRepository.findWithOptions s pollId with
  | none => .error (.pollNotFound pollId)
  | some (_, opts) =>
    let voteStats := s.votes.filter (fun v =>
      v.poll_id == pollId && s.poll_options.any (fun o => o.id == v.option_id))
    let uniqueVotersData := s.votes.filter (fun v => v.poll_id == pollId)
    let totalVotes := voteStats.length
    let uniqueVoters := uniqueVotersData.length
    let optionStats := opts.map (fun o =>
      let cnt := (voteStats.filter (fun v => v.option_id == o.id)).length
      { optionId := o.id, text := o.text, votes := cnt,
        percentage := if 0 < totalVotes then (cnt : ℚ) / (totalVotes : ℚ) * 100 else 0 : OptionStat })
    .ok { totalVotes := totalVotes, uniqueVoters := uniqueVoters, optionStats := optionStats }

/-! ## Refactored service (lib/services/poll-service.ts)

`PollService` methods; the clock is an explicit argument. -/

/-- Edit form data: a field that is `none` is absent from the partial
update.  For `expiresAt` the inner `none` is an explicit null date. -/
structure EditPollData where
  title : Option String
  description : Option String
  expiresAt : Option (Option JSDate)
  allowMultipleVotes : Option Bool
  isAnonymous : Option Bool
  isActive : Option Bool

/-- PollValidators.validateEditPoll: only the fields present are
validated. -/
def validateEditPoll (d : EditPollData) (now : JSDate) : List String :=
  (match d.title with
   | none => []
   | some t => validateTitle (some t))
  ++ (match d.description with
      | none => []
      | some ds => validateDescription (some ds))
  ++ (match d.expiresAt with
      | none => []
      | some e => validateExpirationDateErrors e now)

/-- Field updates applied by PollService.updatePoll after validation
(`updated_at` is always refreshed; a trimmed-empty description becomes
null; a null date clears `expires_at`). -/
def applyEditPoll (p : Poll) (d : EditPollData) (now : JSDate) : Poll :=
  let p := { p with updated_at := now.toMs }
  let p := match d.title with
    | none => p
    | some t => { p with title := jsTrim t }
  let p := match d.description with
    | none => p
    | some ds => { p with description := if (jsTrim ds).isEmpty then none else some (jsTrim ds) }
  let p := match d.expiresAt with
    | none => p
    | some e => { p with expires_at := e.map JSDate.toMs }
  let p := match d.allowMultipleVotes with
    | none => p
    | some b => { p with allow_multiple_votes := b }
  let p := match d.isAnonymous with
    | none => p
    | some b => { p with is_anonymous := b }
  match d.isActive with
  | none => p
  | some b => { p with is_active := b }

/-- PollService.updatePoll: load the poll, reject a non-creator with an
UnauthorizedError before anything is written, validate the present
fields, then apply the update. -/
def PollService.updatePoll (s : DBState) (pollId : String) (formData : EditPollData)
    (userId : String) (now : JSDate) : Except ServiceError Poll × DBState :=
  match s.polls.find? (fun p => p.id == pollId) with
  | none => (.error (.pollNotFound pollId), s)
  | some existingPoll =>
    if existingPoll.created_by != userId then
      (.error (.unauthorized "edit this poll"), s)
    else
      let verrs := validateEditPoll formData now
      if !verrs.isEmpty then (.error (.validationFailed verrs), s)
      else
        let updated := applyEditPoll existingPoll formData now
        (.ok updated,
         { s with polls := s.polls.map (fun p => if p.id == pollId then updated else p) })

/-- PollService.deletePoll: load the poll, reject a non-creator, then
delete the poll row (options and votes cascade at the storage layer). -/
def PollService.deletePoll (s : DBState) (pollId userId : String) :
    Except ServiceError Unit × DBState :=
  match s.polls.find? (fun p => p.id == pollId) with
  | none => (.error (.pollNotFound pollId), s)
  | some existingPoll =>
    if existingPoll.created_by != userId then
      (.error (.unauthorized "delete this poll"), s)
    else
      (.ok (), s.deletePollsWhere (fun p => p.id == pollId))

/-- PollService.togglePollStatus: load the poll, reject a non-creator,
flip the active flag through PollRepository.updateStatus and return the
new value. -/
def PollService.togglePollStatus (s : DBState) (pollId userId : String) (now : Int) :
    Except ServiceError (Poll × Bool) × DBState :=
  match s.polls.find? (fun p => p.id == pollId) with
  | none => (.error (.pollNotFound pollId), s)
  | some existingPoll =>
    if existingPoll.created_by != userId then
      (.error (.unauthorized "modify this poll"), s)
    else
      let newStatus := !existingPoll.is_active
      match PollRepository.updateStatus s pollId newStatus now with
      | (.ok updated, s1) => (.ok (updated, newStatus), s1)
      | (.error e, s1) => (.error e, s1)

/-- PollService.submitVote: load the poll with options, check active,
check expiry, validate the submission, check every submitted id against
the poll's own option ids (BusinessLogicError listing the invalid ids),
then VoteRepository.submitVotes.  The hasUserVoted probe of the source is
a read that only feeds a log line. -/
def PollService.submitVote (s : DBState) (pollId : String) (optionIds : List String)
    (userId : String) (now : Int) : Except ServiceError Unit × DBState :=
  match PollRepository.findWithOptions s pollId with
  | none => (.error (.pollNotFound pollId), s)
  | some (poll, opts) =>
    if !poll.is_active then (.error (.pollInactive pollId), s)
    else if (match poll.expires_at with | some t => decide (t < now) | none => false) then
      (.error (.pollExpired pollId), s)
    else
      let verrs := validateVoteSubmission optionIds poll.allow_multiple_votes
      if !verrs.isEmpty then (.error (.validationFailed verrs), s)
      else
        let validOptionIds := opts.map (fun o => o.id)
        let invalidOptions := optionIds.filter (fun oid => !validOptionIds.contains oid)
        if !invalidOptions.isEmpty then (.error (.invalidOptionIds invalidOptions), s)
        else
          (.ok (), (VoteRepository.submitVotes s pollId userId optionIds now).2)

/-- Result of PollService.getUserVote. -/
structure UserVoteResult where
  hasVoted : Bool
  optionIds : List String
deriving DecidableEq, Repr

/-- PollService.getUserVote: the voter's rows for the poll; `hasVoted` is
their count being positive, `optionIds` their option ids. -/
def PollService.getUserVote (s : DBState) (pollId userId : String) : UserVoteResult :=
  let votes := VoteRepository.getUserVotes s pollId userId
  { hasVoted := decide (0 < votes.length), optionIds := votes.map (fun v => v.option_id) }

/-! ## Legacy service (lib/poll-service.ts of the pre-refactor app)

Direct query-builder calls; ownership is enforced only by an extra
`eq(created_by, userId)` filter on the mutation queries. -/

/-- Column updates of the legacy updatePoll (`Partial<InsertPoll>`). -/
structure PollColumnUpdate where
  title : Option String
  description : Option (Option String)
  expires_at : Option (Option Int)
  allow_multiple_votes : Option Bool
  is_anonymous : Option Bool
  is_active : Option Bool

/-- Applies a column update record to a poll row. -/
def applyColumnUpdate (p : Poll) (u : PollColumnUpdate) : Poll :=
  let p := match u.title with | none => p | some t => { p with title := t }
  let p := match u.description with | none => p | some ds => { p with description := ds }
  let p := match u.expires_at with | none => p | some e => { p with expires_at := e }
  let p := match u.allow_multiple_votes with | none => p | some b => { p with allow_multiple_votes := b }
  let p := match u.is_anonymous with | none => p | some b => { p with is_anonymous := b }
  match u.is_active with | none => p | some b => { p with is_active := b }

/-- Legacy PollService.createPoll: insert the poll, insert the options;
when the option insert fails, a compensating delete removes the poll row
(its own error being ignored) and the option-insert error is thrown. -/
def LegacyPollService.createPoll (s : DBState) (pollData : Poll)
    (optionsData : List PollOption) (optionsInsertFails : Bool) :
    Except ServiceError (Poll × List PollOption) × DBState :=
  let s1 := { s with polls := s.polls ++ [pollData] }
  if optionsInsertFails then
    let s2 := s1.deletePollsWhere (fun p => p.id == pollData.id)
    (.error (.dataAccess "Failed to create poll options"), s2)
  else
    let opts := optionsData.map (fun o => { o with poll_id := pollData.id })
    (.ok (pollData, opts), { s1 with poll_options := s1.poll_options ++ opts })

/-- Legacy PollService.updatePoll: one update query filtered by both the
poll id and `created_by`; `.single()` turns a zero-row result into a
thrown error after the (empty) update has run. -/
def LegacyPollService.updatePoll (s : DBState) (pollId : String)
    (updates : PollColumnUpdate) (userId : String) : Except ServiceError Poll × DBState :=
  let hit := fun (p : Poll) => p.id == pollId && p.created_by == userId
  let newPolls := s.polls.map (fun p => if hit p then applyColumnUpdate p updates else p)
  let s1 := { s with polls := newPolls }
  match newPolls.filter hit with
  | [r] => (.ok r, s1)
  | _ => (.error (.dataAccess "Failed to update poll"), s1)

/-- Legacy PollService.deletePoll: one delete query filtered by both the
poll id and `created_by`.  A query matching no rows is not an error, so a
non-creator caller gets a silent success. -/
def LegacyPollService.deletePoll (s : DBState) (pollId userId : String) :
    Except ServiceError Unit × DBState :=
  (.ok (), s.deletePollsWhere (fun p => p.id == pollId && p.created_by == userId))

/-- Legacy PollService.togglePollStatus: read `is_active` through a
`.single()` filtered by id and `created_by` (zero rows throw before any
write), then update through the same filter. -/
def LegacyPollService.togglePollStatus (s : DBState) (pollId userId : String) :
    Except ServiceError Poll × DBState :=
  let hit := fun (p : Poll) => p.id == pollId && p.created_by == userId
  match s.polls.find? hit with
  | none => (.error (.dataAccess "Failed to fetch poll"), s)
  | some cur =>
    let newPolls := s.polls.map (fun p =>
      if hit p then { p with is_active := !cur.is_active } else p)
    let s1 := { s with polls := newPolls }
    match newPolls.filter hit with
    | [r] => (.ok r, s1)
    | _ => (.error (.dataAccess "Failed to toggle poll status"), s1)

/-! ## Helper lemmas -/

/-- Dedup preserves the length exactly of duplicate-free lists. -/
theorem dedup_length_eq_iff {α : Type} [DecidableEq α] (l : List α) :
    l.dedup.length = l.length ↔ l.Nodup := by
  constructor
  · intro h
    have hsub := l.dedup_sublist
    have heq := hsub.eq_of_length h
    rw [← heq]
    exact l.nodup_dedup
  · intro h
    rw [h.dedup]

/-- Filtering on a predicate of the image commutes with mapping. -/
theorem map_filter_comp {α β : Type} (f : α → β) (p : β → Bool) (l : List α) :
    (l.filter (fun a => p (f a))).map f = (l.map f).filter p := by
  induction l with
  | nil => rfl
  | cons a l ih =>
    by_cases h : p (f a) = true
    · simp [List.filter_cons, h, ih]
    · simp [List.filter_cons, h, ih]

/-! ## C8: validateOptions -/

/-- Modelled from the spec: the §4.1 reading of validateOptions, in which
the 2..10 count bound is applied to the non-empty trimmed options after
case-insensitive de-duplication (and per-option length is bounded by
200).  The source applies the bound before de-duplication, so this
predicate is compared against the embedded implementation. -/
def spec41OptionsValid (options : List String) : Bool :=
  let ts := (options.map jsTrim).filter (fun t => !t.isEmpty)
  let deduped := (ts.map jsToLower).dedup
  decide (2 ≤ deduped.length) && decide (deduped.length ≤ 10) &&
    ts.all (fun t => t.length ≤ 200)

/-- C8, counterexample: on four options where two coincide
case-insensitively, the implementation rejects (duplicate error) although
the count after de-duplication is 3, which the §4.1 variant accepts; so
the count bound is not taken after de-duplication. -/
theorem validateOptions_dedup_variant_counterexample :
    validateOptionsIsValid ["a", "A", "b", "c"] = false ∧
    spec41OptionsValid ["a", "A", "b", "c"] = true := by
  decide

/-- C8, amended: validateOptions accepts exactly when, after trimming the
entries and removing those that are empty after trimming, there are
between 2 and 10 entries (counted before de-duplication), no two of them
are equal case-insensitively, and each has length at most 200. -/
theorem validateOptions_isValid_iff (options : List String) :
    validateOptionsIsValid options = true ↔
      (2 ≤ ((options.map jsTrim).filter (fun t => !t.isEmpty)).length ∧
       ((options.map jsTrim).filter (fun t => !t.isEmpty)).length ≤ 10 ∧
       (((options.map jsTrim).filter (fun t => !t.isEmpty)).map jsToLower).Nodup ∧
       ∀ t ∈ (options.map jsTrim).filter (fun t => !t.isEmpty), t.length ≤ 200) := by
  have hts : (options.filter (fun o => !(jsTrim o).isEmpty)).map jsTrim
      = (options.map jsTrim).filter (fun t => !t.isEmpty) :=
    map_filter_comp jsTrim (fun t => !t.isEmpty) options
  have hlen : (options.filter (fun o => !(jsTrim o).isEmpty)).length
      = ((options.map jsTrim).filter (fun t => !t.isEmpty)).length := by
    rw [← hts, List.length_map]
  have hlow : ((options.filter (fun o => !(jsTrim o).isEmpty)).map (fun o => jsToLower (jsTrim o)))
      = ((options.map jsTrim).filter (fun t => !t.isEmpty)).map jsToLower := by
    rw [← hts, List.map_map]
    rfl
  unfold validateOptionsIsValid validateOptionsErrors
  rw [List.isEmpty_iff]
  simp only [List.append_eq_nil, List.filterMap_eq_nil_iff, and_assoc]
  constructor
  · intro h
    obtain ⟨h1, h2, h3, h4⟩ := h
    have c1 : ¬ (options.filter (fun o => !(jsTrim o).isEmpty)).length < 2 := by
      intro hc; rw [if_pos hc] at h1; exact List.cons_ne_nil _ _ h1
    have c2 : ¬ 10 < (options.filter (fun o => !(jsTrim o).isEmpty)).length := by
      intro hc; rw [if_pos hc] at h2; exact List.cons_ne_nil _ _ h2
    have c3 : ((options.filter (fun o => !(jsTrim o).isEmpty)).map
        (fun o => jsToLower (jsTrim o))).dedup.length
        = (options.filter (fun o => !(jsTrim o).isEmpty)).length := by
      by_contra hc
      rw [if_pos hc] at h3; exact List.cons_ne_nil _ _ h3
    have c3 : ((options.filter (fun o => !(jsTrim o).isEmpty)).map
        (fun o => jsToLower (jsTrim o))).dedup.length
        = ((options.filter (fun o => !(jsTrim o).isEmpty)).map
            (fun o => jsToLower (jsTrim o))).length := by
      rw [List.length_map]
      exact c3
    refine ⟨by omega, by omega, ?_, ?_⟩
    · rw [← hlow]
      exact (dedup_length_eq_iff _).mp c3
    · intro t ht
      rw [← hts] at ht
      obtain ⟨o, ho, rfl⟩ := List.mem_map.mp ht
      have hcond := h4 o ho
      by_contra hlen200
      push_neg at hlen200
      rw [if_neg (by omega), if_pos (by omega)] at hcond
      exact Option.some_ne_none _ hcond
  · intro h
    obtain ⟨h1, h2, h3, h4⟩ := h
    refine ⟨?_, ?_, ?_, ?_⟩
    · rw [if_neg (by omega)]
    · rw [if_neg (by omega)]
    · rw [if_neg ?_]
      intro hc
      apply hc
      have hnd : ((options.filter (fun o => !(jsTrim o).isEmpty)).map
          (fun o => jsToLower (jsTrim o))).Nodup := by
        rw [hlow]
        exact h3
      rw [(dedup_length_eq_iff _).mpr hnd, List.length_map]
    · intro o ho
      have htmem : jsTrim o ∈ (options.map jsTrim).filter (fun t => !t.isEmpty) := by
        rw [← hts]
        exact List.mem_map.mpr ⟨o, ho, rfl⟩
      have hle := h4 (jsTrim o) htmem
      have hne : (jsTrim o).length ≠ 0 := by
        intro h0
        rw [string_length_eq_zero_iff] at h0
        have hmem2 := (List.mem_filter.mp ho).2
        rw [h0] at hmem2
        exact absurd hmem2 (by decide)
      rw [if_neg hne, if_neg (by omega)]

/-! ## C9: validateExpirationDate -/

/-- Modelled from the spec: the expiration check as worded there — fail
iff the date is not strictly after the current time or is more than 365
days after the current time. -/
def specExpiration365Fails (e now : JSDate) : Bool :=
  decide (e.toMs ≤ now.toMs) || decide (365 * 86400000 < e.toMs - now.toMs)

/-- C9, counterexample: from 2024-02-28 (a leap year lies in between),
2025-02-28 is 366 days away — more than 365 days, so the spec wording
demands failure — yet the implementation accepts it, because its bound is
the same calendar date one year ahead. -/
theorem validateExpirationDate_365_counterexample :
    validateExpirationDateIsValid (some ⟨2025, 2, 28, 0⟩) ⟨2024, 2, 28, 0⟩ = true ∧
    specExpiration365Fails ⟨2025, 2, 28, 0⟩ ⟨2024, 2, 28, 0⟩ = true ∧
    (⟨2025, 2, 28, 0⟩ : JSDate).toMs - (⟨2024, 2, 28, 0⟩ : JSDate).toMs
      = 366 * 86400000 := by
  refine ⟨by decide, by decide, by decide⟩

/-- C9, amended: a defined expiration date passes exactly when it is
strictly after the current time and at most one calendar year ahead
(the JS setFullYear bound — 365 or 366 days depending on the dates); an
undefined date always passes. -/
theorem validateExpirationDate_ok_iff (e now : JSDate) :
    (validateExpirationDateIsValid (some e) now = true ↔
       now.toMs < e.toMs ∧ e.toMs ≤ now.addOneYear.toMs) ∧
    validateExpirationDateIsValid none now = true := by
  constructor
  · simp only [validateExpirationDateIsValid, validateExpirationDateErrors,
      List.isEmpty_iff, List.append_eq_nil]
    constructor
    · intro ⟨h1, h2⟩
      constructor
      · by_contra hc
        rw [if_pos (by omega)] at h1
        exact List.cons_ne_nil _ _ h1
      · by_contra hc
        rw [if_pos (by omega)] at h2
        exact List.cons_ne_nil _ _ h2
    · intro ⟨h1, h2⟩
      rw [if_neg (by omega), if_neg (by omega)]
      exact ⟨rfl, rfl⟩
  · rfl

deriving instance DecidableEq for Except

/-! ## Concrete fixtures used by several claims -/

/-- A well-formed option id (matches the UUID shape the validators test). -/
def uuidA : String := "00000000-0000-1000-8000-00000000000a"

/-- A second well-formed option id. -/
def uuidB : String := "00000000-0000-1000-8000-00000000000b"

/-- An active, single-vote poll owned by alice. -/
def pollOne : Poll :=
  { id := "p1", title := "Lunch", description := none, created_by := "alice",
    expires_at := none, allow_multiple_votes := false, is_anonymous := false,
    is_active := true, updated_at := 0 }

/-- First option of `pollOne`. -/
def optA : PollOption :=
  { id := uuidA, poll_id := "p1", text := "Pizza", order_index := 0 }

/-- Second option of `pollOne`. -/
def optB : PollOption :=
  { id := uuidB, poll_id := "p1", text := "Sushi", order_index := 1 }

/-! ## C1: scope of the deletes inside submitVotes -/

/-- A vote by carol on `pollOne`. -/
def voteCarolP1 : Vote :=
  { poll_id := "p1", option_id := uuidA, user_id := "carol", created_at := 0 }

/-- A vote by bob on a different poll. -/
def voteBobP2 : Vote :=
  { poll_id := "p2", option_id := "o9", user_id := "bob", created_at := 0 }

/-- State before bob votes on `pollOne`: carol has a vote on the same
poll, bob has a vote on another poll. -/
def dbBeforeBobVotes : DBState :=
  { polls := [pollOne], poll_options := [optA, optB],
    votes := [voteCarolP1, voteBobP2] }

/-- C1: a successful submitVote by bob on poll p1 deletes carol's vote
row for p1 (delete by poll id alone) and bob's vote row on poll p2
(delete by user id alone), although both rows disagree with
(poll_id = p1 ∧ user_id = bob); the deletes are not scoped to the
submitting voter and poll. -/
theorem submitVotes_delete_not_scoped :
    (PollService.submitVote dbBeforeBobVotes "p1" [uuidB] "bob" 5).1 = .ok () ∧
    voteCarolP1 ∈ dbBeforeBobVotes.votes ∧
    voteBobP2 ∈ dbBeforeBobVotes.votes ∧
    voteCarolP1 ∉ (PollService.submitVote dbBeforeBobVotes "p1" [uuidB] "bob" 5).2.votes ∧
    voteBobP2 ∉ (PollService.submitVote dbBeforeBobVotes "p1" [uuidB] "bob" 5).2.votes ∧
    voteCarolP1.poll_id = "p1" ∧ voteCarolP1.user_id ≠ "bob" ∧
    voteBobP2.user_id = "bob" ∧ voteBobP2.poll_id ≠ "p1" := by
  decide

/-! ## C2: compensating delete after a failed option insert -/

/-- C2: when the option insert fails after the poll insert succeeded, the
refactored PollRepository.createWithOptions propagates the error but
leaves the partially-created poll row in the table, while the legacy
service's createPoll removes it; the cleanup the spec requires is absent
from the repository path. -/
theorem createWithOptions_missing_cleanup :
    (PollRepository.createWithOptions ⟨[], [], []⟩ pollOne [optA, optB] true).1
      = .error (.dataAccess "createOptions") ∧
    pollOne ∈ (PollRepository.createWithOptions ⟨[], [], []⟩ pollOne [optA, optB] true).2.polls ∧
    (LegacyPollService.createPoll ⟨[], [], []⟩ pollOne [optA, optB] true).1
      = .error (.dataAccess "Failed to create poll options") ∧
    pollOne ∉ (LegacyPollService.createPoll ⟨[], [], []⟩ pollOne [optA, optB] true).2.polls := by
  decide

/-! ## C3: the uniqueVoters figure of getStatistics -/

/-- State in which a single voter holds two vote rows on `pollOne`. -/
def dbOneVoterTwoRows : DBState :=
  { polls := [pollOne], poll_options := [optA, optB],
    votes := [{ poll_id := "p1", option_id := uuidA, user_id := "u1", created_at := 0 },
              { poll_id := "p1", option_id := uuidB, user_id := "u1", created_at := 1 }] }

/-- C3: with one voter holding two vote rows, getStatistics reports
uniqueVoters = 2 — the row count of the poll's votes — although the set
of distinct voter ids has size 1 (which the unused
VoteRepository.getUniqueVoterCount computes correctly). -/
theorem getStatistics_uniqueVoters_is_row_count :
    (PollRepository.getStatistics dbOneVoterTwoRows "p1").toOption.map
        (fun st => st.uniqueVoters) = some 2 ∧
    ((dbOneVoterTwoRows.votes.filter (fun v => v.poll_id == "p1")).map
        (fun v => v.user_id)).dedup.length = 1 ∧
    VoteRepository.getUniqueVoterCount dbOneVoterTwoRows "p1" = 1 := by
  decide

/-! ## Inversion of a successful submitVote -/

/-- A successful submitVote went through every check and rewrote the
votes table by the delete-delete-insert of VoteRepository.submitVotes;
success also means the submission passed validation, so it was
non-empty. -/
theorem submitVote_ok_inversion (s : DBState) (pollId : String) (optionIds : List String)
    (userId : String) (now : Int) (s' : DBState)
    (h : PollService.submitVote s pollId optionIds userId now = (.ok (), s')) :
    s'.votes = ((s.votes.filter (fun v => v.poll_id != pollId)).filter
        (fun v => v.user_id != userId))
      ++ optionIds.map (fun oid =>
          { poll_id := pollId, option_id := oid, user_id := userId, created_at := now : Vote })
      ∧ optionIds ≠ [] := by
  unfold PollService.submitVote at h
  split at h
  · simp at h
  case h_2 poll opts heq =>
    split at h
    · simp at h
    · split at h
      · simp at h
      · dsimp only at h
        split at h
        · simp at h
        · split at h
          case isTrue => simp at h
          case isFalse hval hinv =>
            have hs : s' = (VoteRepository.submitVotes s pollId userId optionIds now).2 := by
              have hsnd := congrArg Prod.snd h
              exact hsnd.symm
            constructor
            · rw [hs]
              rfl
            · intro hnil
              subst hnil
              simp [validateVoteSubmission] at hval

/-- Projecting the option id back out of freshly built vote rows. -/
theorem map_option_id_of_mk (pollId userId : String) (now : Int) (l : List String) :
    (l.map (fun oid =>
        { poll_id := pollId, option_id := oid, user_id := userId, created_at := now : Vote })).map
      (fun v => v.option_id) = l := by
  induction l with
  | nil => rfl
  | cons a t ih => simp [ih]

/-! ## C10: submitVote replaces rather than accumulates -/

/-- C10: a successful submitVote, on any poll and independently of the
allow-multiple-votes flag (on which nothing below depends), first deletes
and then inserts: the resulting votes table is the old one with the
poll's rows and the voter's rows removed and one fresh row per submitted
option appended, so the voter's recorded votes for the poll are exactly
the option ids of the latest submission. -/
theorem submitVote_replaces_unconditionally (s : DBState) (pollId : String)
    (optionIds : List String) (userId : String) (now : Int) (s' : DBState)
    (h : PollService.submitVote s pollId optionIds userId now = (.ok (), s')) :
    s'.votes = ((s.votes.filter (fun v => v.poll_id != pollId)).filter
        (fun v => v.user_id != userId))
      ++ optionIds.map (fun oid =>
          { poll_id := pollId, option_id := oid, user_id := userId, created_at := now : Vote })
    ∧ (s'.votes.filter (fun v => v.poll_id == pollId && v.user_id == userId)).map
        (fun v => v.option_id) = optionIds := by
  obtain ⟨hs, hne⟩ := submitVote_ok_inversion s pollId optionIds userId now s' h
  refine ⟨hs, ?_⟩
  rw [hs, List.filter_append]
  have hpre : ((s.votes.filter (fun v => v.poll_id != pollId)).filter
      (fun v => v.user_id != userId)).filter
        (fun v => v.poll_id == pollId && v.user_id == userId) = [] := by
    rw [List.filter_eq_nil_iff]
    intro v hv
    have hmem := List.mem_filter.mp (List.mem_filter.mp hv).1
    have hbne : (v.poll_id != pollId) = true := hmem.2
    simp only [bne_iff_ne, ne_eq] at hbne
    simp [hbne]
  have hnew : (optionIds.map (fun oid =>
      { poll_id := pollId, option_id := oid, user_id := userId, created_at := now : Vote })).filter
        (fun v => v.poll_id == pollId && v.user_id == userId)
      = optionIds.map (fun oid =>
          { poll_id := pollId, option_id := oid, user_id := userId, created_at := now : Vote }) := by
    rw [List.filter_eq_self]
    intro v hv
    obtain ⟨oid, _, rfl⟩ := List.mem_map.mp hv
    simp
  rw [hpre, hnew, List.nil_append]
  exact map_option_id_of_mk pollId userId now optionIds

/-- C10, witness: bob's successful vote for the second option of the
fixture poll leaves exactly that option id recorded for him. -/
theorem submitVote_replaces_unconditionally_witness :
    ((PollService.submitVote dbBeforeBobVotes "p1" [uuidB] "bob" 5).2.votes.filter
        (fun v => v.poll_id == "p1" && v.user_id == "bob")).map (fun v => v.option_id)
      = [uuidB] :=
  (submitVote_replaces_unconditionally dbBeforeBobVotes "p1" [uuidB] "bob" 5
      (PollService.submitVote dbBeforeBobVotes "p1" [uuidB] "bob" 5).2 (by decide)).2

/-! ## C4: getUserVote after a re-vote on a single-vote poll -/

/-- C4: on a single-vote poll, after two successful submitVote calls by
the same voter, getUserVote reports hasVoted and exactly the option ids
of the second submission; no option id of the first submission that is
absent from the second survives. -/
theorem getUserVote_after_revote (s : DBState) (pollId userId : String)
    (opts1 opts2 : List String) (t1 t2 : Int) (s1 s2 : DBState)
    (poll : Poll) (pollOpts : List PollOption)
    (hfind : PollRepository.findWithOptions s pollId = some (poll, pollOpts))
    (hsingle : poll.allow_multiple_votes = false)
    (h1 : PollService.submitVote s pollId opts1 userId t1 = (.ok (), s1))
    (h2 : PollService.submitVote s1 pollId opts2 userId t2 = (.ok (), s2)) :
    PollService.getUserVote s2 pollId userId = { hasVoted := true, optionIds := opts2 } ∧
    ∀ oid ∈ opts1, oid ∉ opts2 →
      oid ∉ (PollService.getUserVote s2 pollId userId).optionIds := by
  obtain ⟨hs2, hne2⟩ := submitVote_ok_inversion s1 pollId opts2 userId t2 s2 h2
  have hvotes : VoteRepository.getUserVotes s2 pollId userId
      = opts2.map (fun oid =>
          { poll_id := pollId, option_id := oid, user_id := userId, created_at := t2 : Vote }) := by
    unfold VoteRepository.getUserVotes
    rw [hs2, List.filter_append]
    have hpre : ((s1.votes.filter (fun v => v.poll_id != pollId)).filter
        (fun v => v.user_id != userId)).filter (fun v => v.poll_id == pollId) = [] := by
      rw [List.filter_eq_nil_iff]
      intro v hv
      have hmem := List.mem_filter.mp (List.mem_filter.mp hv).1
      have hbne : (v.poll_id != pollId) = true := hmem.2
      simp only [bne_iff_ne, ne_eq] at hbne
      simp [hbne]
    have hnew : (opts2.map (fun oid =>
        { poll_id := pollId, option_id := oid, user_id := userId, created_at := t2 : Vote })).filter
          (fun v => v.poll_id == pollId)
        = opts2.map (fun oid =>
            { poll_id := pollId, option_id := oid, user_id := userId, created_at := t2 : Vote }) := by
      rw [List.filter_eq_self]
      intro v hv
      obtain ⟨oid, _, rfl⟩ := List.mem_map.mp hv
      simp
    rw [hpre, hnew, List.nil_append, List.filter_eq_self.mpr]
    intro v hv
    obtain ⟨oid, _, rfl⟩ := List.mem_map.mp hv
    simp
  have hmain : PollService.getUserVote s2 pollId userId
      = { hasVoted := true, optionIds := opts2 } := by
    unfold PollService.getUserVote
    rw [hvotes]
    dsimp only
    refine congrArg₂ UserVoteResult.mk ?_ ?_
    · refine decide_eq_true ?_
      rw [List.length_map]
      exact List.length_pos.mpr hne2
    · exact map_option_id_of_mk pollId userId t2 opts2
  refine ⟨hmain, ?_⟩
  intro oid hin hnot
  rw [hmain]
  exact hnot

/-! ## C5: submitting an option id that is not the poll's -/

/-- C5, counterexample: the id `zzz` does not belong to the poll, yet the
call fails with a ValidationError (the id-format check of
validateVoteSubmission runs first), not with the business-rule
invalid-option-ids error the claim names. -/
theorem submitVote_invalid_option_error_category :
    (PollService.submitVote dbBeforeBobVotes "p1" ["zzz"] "bob" 0).1
      = .error (.validationFailed ["Option ID format is invalid"]) ∧
    "zzz" ∉ (dbBeforeBobVotes.poll_options.filter
        (fun o => o.poll_id == "p1")).map (fun o => o.id) := by
  decide

/-- C5, amended: when some submitted option id is not among the poll's
own option ids, submitVote always fails and leaves the database (in
particular the votes table) unchanged; the error is the business-rule
invalid-option-ids error exactly when the poll is active and unexpired
and the submission passes the vote-format validation, and otherwise is
the corresponding state or validation error. -/
theorem submitVote_invalid_option_rejected (s : DBState) (pollId : String)
    (optionIds : List String) (userId : String) (now : Int)
    (poll : Poll) (opts : List PollOption)
    (hfind : PollRepository.findWithOptions s pollId = some (poll, opts))
    (hbad : ∃ oid ∈ optionIds, oid ∉ opts.map (fun o => o.id)) :
    ((PollService.submitVote s pollId optionIds userId now).1.isOk = false ∧
     (PollService.submitVote s pollId optionIds userId now).2 = s) ∧
    (poll.is_active = true →
     (∀ t, poll.expires_at = some t → ¬ t < now) →
     validateVoteSubmission optionIds poll.allow_multiple_votes = [] →
     (PollService.submitVote s pollId optionIds userId now).1
       = .error (.invalidOptionIds (optionIds.filter
           (fun oid => !(opts.map (fun o => o.id)).contains oid)))) := by
  have hinv : (optionIds.filter
      (fun oid => !(opts.map (fun o => o.id)).contains oid)).isEmpty = false := by
    obtain ⟨oid, hmem, hnot⟩ := hbad
    have hoidmem : oid ∈ optionIds.filter
        (fun oid => !(opts.map (fun o => o.id)).contains oid) := by
      rw [List.mem_filter]
      refine ⟨hmem, ?_⟩
      rw [Bool.not_eq_true']
      exact Bool.eq_false_iff.mpr (fun hcon => hnot (List.elem_iff.mp hcon))
    cases hh : (optionIds.filter
        (fun oid => !(opts.map (fun o => o.id)).contains oid)).isEmpty
    · rfl
    · rw [List.isEmpty_iff] at hh
      rw [hh] at hoidmem
      cases hoidmem
  unfold PollService.submitVote
  rw [hfind]
  dsimp only
  by_cases hact : poll.is_active = true
  · have hact' : (!poll.is_active) = false := by rw [hact]; rfl
    rw [hact', if_neg (by simp)]
    cases hexpat : poll.expires_at with
    | some t =>
      by_cases hlt : t < now
      · rw [if_pos (by simp [hlt])]
        refine ⟨⟨rfl, rfl⟩, ?_⟩
        intro _ hnex _
        exact absurd hlt (hnex t rfl)
      · rw [if_neg (by simp [hlt])]
        by_cases hval : validateVoteSubmission optionIds poll.allow_multiple_votes = []
        · rw [if_neg (by simp [hval])]
          rw [if_pos (by rw [hinv]; rfl)]
          exact ⟨⟨rfl, rfl⟩, fun _ _ _ => rfl⟩
        · have hvne : (validateVoteSubmission optionIds poll.allow_multiple_votes).isEmpty
              = false := by
            cases hh : (validateVoteSubmission optionIds poll.allow_multiple_votes).isEmpty
            · rfl
            · exact absurd (List.isEmpty_iff.mp hh) hval
          rw [if_pos (by simp [hvne])]
          exact ⟨⟨rfl, rfl⟩, fun _ _ hv => absurd hv hval⟩
    | none =>
      rw [if_neg (by simp)]
      by_cases hval : validateVoteSubmission optionIds poll.allow_multiple_votes = []
      · rw [if_neg (by simp [hval])]
        rw [if_pos (by rw [hinv]; rfl)]
        exact ⟨⟨rfl, rfl⟩, fun _ _ _ => rfl⟩
      · have hvne : (validateVoteSubmission optionIds poll.allow_multiple_votes).isEmpty
            = false := by
          cases hh : (validateVoteSubmission optionIds poll.allow_multiple_votes).isEmpty
          · rfl
          · exact absurd (List.isEmpty_iff.mp hh) hval
        rw [if_pos (by simp [hvne])]
        exact ⟨⟨rfl, rfl⟩, fun _ _ hv => absurd hv hval⟩
  · have hact' : (!poll.is_active) = true := by
      rw [Bool.eq_false_iff.mpr hact]
      rfl
    rw [if_pos hact']
    exact ⟨⟨rfl, rfl⟩, fun ha => absurd ha hact⟩

/-- C5, witness: submitting a well-formed but foreign option id on the
active fixture poll produces exactly the invalid-option-ids error and
leaves the database untouched. -/
theorem submitVote_invalid_option_rejected_witness :
    (PollService.submitVote dbBeforeBobVotes "p1"
        ["00000000-0000-1000-8000-00000000000c"] "bob" 0).1
      = .error (.invalidOptionIds ["00000000-0000-1000-8000-00000000000c"]) ∧
    (PollService.submitVote dbBeforeBobVotes "p1"
        ["00000000-0000-1000-8000-00000000000c"] "bob" 0).2 = dbBeforeBobVotes := by
  have h := submitVote_invalid_option_rejected dbBeforeBobVotes "p1"
      ["00000000-0000-1000-8000-00000000000c"] "bob" 0 pollOne [optA, optB]
      (by decide)
      ⟨"00000000-0000-1000-8000-00000000000c", by decide, by decide⟩
  have h2 := h.2 (by decide) (fun t ht => by simp [pollOne] at ht) (by decide)
  refine ⟨?_, h.1.2⟩
  rw [h2]
  decide

/-! ## C7: ownership checks on update, delete and toggle -/

/-- Mapping a function that fixes every element of a list is the
identity. -/
theorem map_eq_self_of_eq {α : Type} (l : List α) (f : α → α)
    (h : ∀ x ∈ l, f x = x) : l.map f = l := by
  induction l with
  | nil => rfl
  | cons a t ih =>
    rw [List.map_cons, h a (List.mem_cons_self a t), ih (fun x hx => h x (List.mem_cons_of_mem a hx))]

/-- Updating by id inside a map keeps the first id match, updated. -/
theorem find?_map_update (l : List Poll) (pollId : String) (f : Poll → Poll)
    (hf : ∀ q, (f q).id = q.id) (p : Poll)
    (hp : l.find? (fun q => q.id == pollId) = some p) :
    (l.map (fun q => if q.id == pollId then f q else q)).find? (fun q => q.id == pollId)
      = some (f p) := by
  induction l with
  | nil => simp at hp
  | cons a t ih =>
    rw [List.map_cons]
    by_cases ha : (a.id == pollId) = true
    · simp only [List.find?_cons, ha] at hp
      have hap : a = p := Option.some.inj hp
      subst hap
      simp only [List.find?_cons, ha, hf, if_true]
    · have ha2 : (a.id == pollId) = false := Bool.eq_false_iff.mpr ha
      simp only [List.find?_cons, ha2] at hp
      have hhead : (if (a.id == pollId) = true then f a else a) = a :=
        if_neg (by rw [ha2]; exact Bool.false_ne_true)
      rw [hhead, List.find?_cons, ha2]
      exact ih hp

/-- C7, counterexample: bob is not the creator of the fixture poll, yet
the legacy deletePoll returns success — no authorization error at all —
while silently deleting nothing. -/
theorem legacy_deletePoll_silent_for_non_creator :
    LegacyPollService.deletePoll dbBeforeBobVotes "p1" "bob" = (.ok (), dbBeforeBobVotes) ∧
    pollOne ∈ dbBeforeBobVotes.polls ∧ pollOne.id = "p1" ∧ pollOne.created_by ≠ "bob" := by
  decide

/-- C7, amended: in the refactored service a non-creator caller of
updatePoll, deletePoll or togglePollStatus receives an UnauthorizedError
and the database is unchanged, and a creator caller proceeds (deletePoll
deletes, togglePollStatus flips the flag, updatePoll reaches validation);
in the legacy service a non-creator's updatePoll and togglePollStatus
fail with a generic data-access error and the database is unchanged,
while a non-creator's deletePoll silently succeeds without deleting
anything. -/
theorem ownership_enforcement (s : DBState) (pollId requesterId : String) (p : Poll)
    (hp : s.polls.find? (fun q => q.id == pollId) = some p) :
    (p.created_by ≠ requesterId →
     (∀ q ∈ s.polls, q.id = pollId → q.created_by ≠ requesterId) →
     ∀ (formData : EditPollData) (nowD : JSDate) (upd : PollColumnUpdate) (now : Int),
       PollService.updatePoll s pollId formData requesterId nowD
         = (.error (.unauthorized "edit this poll"), s) ∧
       PollService.deletePoll s pollId requesterId
         = (.error (.unauthorized "delete this poll"), s) ∧
       PollService.togglePollStatus s pollId requesterId now
         = (.error (.unauthorized "modify this poll"), s) ∧
       LegacyPollService.updatePoll s pollId upd requesterId
         = (.error (.dataAccess "Failed to update poll"), s) ∧
       LegacyPollService.togglePollStatus s pollId requesterId
         = (.error (.dataAccess "Failed to fetch poll"), s) ∧
       LegacyPollService.deletePoll s pollId requesterId = (.ok (), s)) ∧
    (p.created_by = requesterId →
     ∀ (formData : EditPollData) (nowD : JSDate) (now : Int),
       PollService.deletePoll s pollId requesterId
         = (.ok (), s.deletePollsWhere (fun q => q.id == pollId)) ∧
       PollService.togglePollStatus s pollId requesterId now
         = (.ok ({ p with is_active := !p.is_active, updated_at := now }, !p.is_active),
            { s with polls := s.polls.map (fun q =>
                if q.id == pollId then { q with is_active := !p.is_active, updated_at := now }
                else q) }) ∧
       (PollService.updatePoll s pollId formData requesterId nowD).1
         ≠ .error (.unauthorized "edit this poll")) := by
  constructor
  · intro hne hallq formData nowD upd now
    have hbne : (p.created_by != requesterId) = true := bne_iff_ne.mpr hne
    have hfalse : ∀ q ∈ s.polls, (q.id == pollId && q.created_by == requesterId) = false := by
      intro q hq
      by_cases hid : q.id = pollId
      · have : (q.created_by == requesterId) = false :=
          beq_eq_false_iff_ne.mpr (hallq q hq hid)
        simp [this]
      · have : (q.id == pollId) = false := beq_eq_false_iff_ne.mpr hid
        simp [this]
    have hmap : s.polls.map (fun q =>
        if q.id == pollId && q.created_by == requesterId then applyColumnUpdate q upd else q)
        = s.polls := by
      apply map_eq_self_of_eq
      intro q hq
      rw [if_neg (by rw [hfalse q hq]; exact Bool.false_ne_true)]
    have hfilterhit : s.polls.filter
        (fun q => q.id == pollId && q.created_by == requesterId) = [] := by
      rw [List.filter_eq_nil_iff]
      intro q hq
      rw [hfalse q hq]
      exact Bool.false_ne_true
    have hcascade : DBState.deletePollsWhere s
        (fun q => q.id == pollId && q.created_by == requesterId) = s := by
      unfold DBState.deletePollsWhere
      rw [hfilterhit]
      cases s with
      | mk ps os vs =>
        simp only [DBState.mk.injEq]
        refine ⟨?_, ?_, ?_⟩
        · rw [List.filter_eq_self]
          intro q hq
          have hq' : q ∈ DBState.polls ⟨ps, os, vs⟩ := hq
          rw [hfalse q hq']
          rfl
        · rw [List.filter_eq_self]
          intro o _
          rfl
        · rw [List.filter_eq_self]
          intro v _
          rfl
    refine ⟨?_, ?_, ?_, ?_, ?_, ?_⟩
    · unfold PollService.updatePoll
      rw [hp]
      dsimp only
      rw [if_pos hbne]
    · unfold PollService.deletePoll
      rw [hp]
      dsimp only
      rw [if_pos hbne]
    · unfold PollService.togglePollStatus
      rw [hp]
      dsimp only
      rw [if_pos hbne]
    · unfold LegacyPollService.updatePoll
      dsimp only
      rw [hmap, hfilterhit]
    · unfold LegacyPollService.togglePollStatus
      dsimp only
      rw [List.find?_eq_none.mpr]
      intro q hq
      rw [hfalse q hq]
      exact Bool.false_ne_true
    · unfold LegacyPollService.deletePoll
      rw [hcascade]
  · intro heq formData nowD now
    have hbne : (p.created_by != requesterId) = false := by
      rw [heq]
      exact bne_self_eq_false requesterId
    refine ⟨?_, ?_, ?_⟩
    · unfold PollService.deletePoll
      rw [hp]
      dsimp only
      rw [if_neg (by rw [hbne]; exact Bool.false_ne_true)]
    · unfold PollService.togglePollStatus PollRepository.updateStatus
      rw [hp]
      dsimp only
      rw [if_neg (by rw [hbne]; exact Bool.false_ne_true)]
      rw [find?_map_update s.polls pollId
          (fun q => { q with is_active := !p.is_active, updated_at := now })
          (fun q => rfl) p hp]
    · unfold PollService.updatePoll
      rw [hp]
      dsimp only
      rw [if_neg (by rw [hbne]; exact Bool.false_ne_true)]
      by_cases hv : (validateEditPoll formData nowD).isEmpty = true
      · rw [if_neg (by rw [hv]; exact Bool.false_ne_true)]
        intro hcon
        simp at hcon
      · have hv' : (validateEditPoll formData nowD).isEmpty = false :=
          Bool.eq_false_iff.mpr hv
        rw [if_pos (by rw [hv']; rfl)]
        intro hcon
        simp at hcon

/-- C7, witness: on the fixture state, bob (not the creator) is rejected
by the refactored deletePoll with the UnauthorizedError and the state is
returned unchanged. -/
theorem ownership_enforcement_witness :
    PollService.deletePoll dbBeforeBobVotes "p1" "bob"
      = (.error (.unauthorized "delete this poll"), dbBeforeBobVotes) :=
  ((ownership_enforcement dbBeforeBobVotes "p1" "bob" pollOne (by decide)).1
    (by decide) (by decide)
    ⟨none, none, none, none, none, none⟩ ⟨2024, 1, 1, 0⟩
    ⟨none, none, none, none, none, none⟩ 0).2.1

/-! ## C6: percentages of getStatistics -/

/-- Pointwise equal functions map lists equally. -/
theorem map_congr_mem {α β : Type} (l : List α) (f g : α → β)
    (h : ∀ a ∈ l, f a = g a) : l.map f = l.map g := by
  induction l with
  | nil => rfl
  | cons a t ih =>
    rw [List.map_cons, List.map_cons, h a (List.mem_cons_self a t),
        ih (fun x hx => h x (List.mem_cons_of_mem a hx))]

/-- Sum of a pointwise sum of naturals splits. -/
theorem sum_map_add_split (ids : List String) (f g : String → Nat) :
    (ids.map (fun i => f i + g i)).sum = (ids.map f).sum + (ids.map g).sum := by
  induction ids with
  | nil => rfl
  | cons i tl ih =>
    simp only [List.map_cons, List.sum_cons, ih]
    omega

/-- Over a duplicate-free list containing `a`, the indicator of `a` sums
to one. -/
theorem sum_indicator_nodup (a : String) (ids : List String)
    (hnd : ids.Nodup) (hm : a ∈ ids) :
    (ids.map (fun i => if a == i then (1 : Nat) else 0)).sum = 1 := by
  induction ids with
  | nil => cases hm
  | cons i tl ih =>
    rcases List.mem_cons.mp hm with h | h
    · subst h
      rw [List.map_cons, List.sum_cons, if_pos (beq_self_eq_true a)]
      have hz : (tl.map (fun i => if a == i then (1 : Nat) else 0)).sum = 0 := by
        apply List.sum_eq_zero
        intro x hx
        obtain ⟨j, hj, rfl⟩ := List.mem_map.mp hx
        have hne : a ≠ j := by
          intro he
          apply (List.nodup_cons.mp hnd).1
          rw [he]
          exact hj
        rw [if_neg (by rw [beq_eq_false_iff_ne.mpr hne]; exact Bool.false_ne_true)]
      rw [hz]
    · have hne : a ≠ i := by
        intro he
        apply (List.nodup_cons.mp hnd).1
        rw [← he]
        exact h
      rw [List.map_cons, List.sum_cons,
          if_neg (by rw [beq_eq_false_iff_ne.mpr hne]; exact Bool.false_ne_true),
          ih (List.nodup_cons.mp hnd).2 h]

/-- Partitioning votes over a duplicate-free id list covering them: the
per-id filtered counts sum to the total count. -/
theorem sum_filter_counts (ids : List String) (hnd : ids.Nodup) :
    ∀ vs : List Vote, (∀ v ∈ vs, v.option_id ∈ ids) →
      (ids.map (fun i => (vs.filter (fun v => v.option_id == i)).length)).sum = vs.length := by
  intro vs
  induction vs with
  | nil =>
    intro _
    simp
  | cons v tl ih =>
    intro hmem
    have hm : v.option_id ∈ ids := hmem v (List.mem_cons_self v tl)
    have htl := ih (fun w hw => hmem w (List.mem_cons_of_mem v hw))
    have hstep : ids.map (fun i => ((v :: tl).filter (fun w => w.option_id == i)).length)
        = ids.map (fun i => (if v.option_id == i then (1 : Nat) else 0)
            + (tl.filter (fun w => w.option_id == i)).length) := by
      apply map_congr_mem
      intro i _
      by_cases h : (v.option_id == i) = true
      · simp only [List.filter_cons, h, if_pos, List.length_cons]
        omega
      · have h2 : (v.option_id == i) = false := Bool.eq_false_iff.mpr h
        simp [List.filter_cons, h2]
    rw [hstep, sum_map_add_split, sum_indicator_nodup v.option_id ids hnd hm, htl,
        List.length_cons]
    omega

/-- Sum of a map with a constant right factor. -/
theorem sum_map_mul_const (l : List PollOption) (f : PollOption → ℚ) (k : ℚ) :
    (l.map (fun o => f o * k)).sum = (l.map f).sum * k := by
  induction l with
  | nil => simp
  | cons a t ih =>
    simp only [List.map_cons, List.sum_cons, ih, add_mul]

/-- Casting a sum of naturals into the rationals. -/
theorem sum_map_natcast (l : List PollOption) (f : PollOption → Nat) :
    (l.map (fun o => ((f o : Nat) : ℚ))).sum = (((l.map f).sum : Nat) : ℚ) := by
  induction l with
  | nil => simp
  | cons a t ih =>
    simp [ih]

/-- C6: in every state whose poll options have duplicate-free ids and
whose vote rows for the poll each reference one of the poll's own
options (which holds in every state the service operations reach),
getStatistics assigns each option the percentage votes/totalVotes*100,
all percentages are 0 when totalVotes = 0, and the percentages sum to
exactly 100 when totalVotes > 0. -/
theorem getStatistics_percentages (s : DBState) (pollId : String) (stats : PollStatistics)
    (hok : PollRepository.getStatistics s pollId = .ok stats)
    (hnd : ((s.poll_options.filter (fun o => o.poll_id == pollId)).map
        (fun o => o.id)).Nodup)
    (href : ∀ v ∈ s.votes, v.poll_id = pollId →
        ∃ o ∈ s.poll_options, o.poll_id = pollId ∧ o.id = v.option_id) :
    (∀ st ∈ stats.optionStats,
        st.percentage = if 0 < stats.totalVotes
          then (st.votes : ℚ) / (stats.totalVotes : ℚ) * 100 else 0) ∧
    (stats.totalVotes = 0 → ∀ st ∈ stats.optionStats, st.percentage = 0) ∧
    (0 < stats.totalVotes →
        (stats.optionStats.map (fun st => st.percentage)).sum = 100) := by
  cases hfw : PollRepository.findWithOptions s pollId with
  | none =>
    unfold PollRepository.getStatistics at hok
    rw [hfw] at hok
    simp at hok
  | some pr =>
    obtain ⟨q, opts⟩ := pr
    have hopts : opts = s.poll_options.filter (fun o => o.poll_id == pollId) := by
      unfold PollRepository.findWithOptions at hfw
      cases hfind : s.polls.find? (fun p => p.id == pollId) with
      | none =>
        rw [hfind] at hfw
        simp at hfw
      | some p0 =>
        rw [hfind] at hfw
        simp only [Option.some.injEq, Prod.mk.injEq] at hfw
        exact hfw.2.symm
    unfold PollRepository.getStatistics at hok
    rw [hfw] at hok
    dsimp only at hok
    have hstats := (Except.ok.inj hok).symm
    subst hstats
    dsimp only
    set vs := s.votes.filter (fun v => v.poll_id == pollId
        && s.poll_options.any (fun o => o.id == v.option_id)) with hvs
    refine ⟨?_, ?_, ?_⟩
    · intro st hst
      obtain ⟨o, ho, rfl⟩ := List.mem_map.mp hst
      rfl
    · intro hT0 st hst
      obtain ⟨o, ho, rfl⟩ := List.mem_map.mp hst
      dsimp only
      rw [if_neg (by omega)]
    · intro hT
      have hmapped : (opts.map (fun o =>
          { optionId := o.id, text := o.text,
            votes := (vs.filter (fun v => v.option_id == o.id)).length,
            percentage := if 0 < vs.length
              then ((vs.filter (fun v => v.option_id == o.id)).length : ℚ)
                / (vs.length : ℚ) * 100
              else 0 : OptionStat })).map (fun st => st.percentage)
          = opts.map (fun o =>
              (((vs.filter (fun v => v.option_id == o.id)).length : Nat) : ℚ)
                * (100 / (vs.length : ℚ))) := by
        rw [List.map_map]
        apply map_congr_mem
        intro o _
        dsimp only [Function.comp]
        rw [if_pos hT]
        ring
      rw [hmapped, sum_map_mul_const, sum_map_natcast]
      have hcounts : (opts.map (fun o =>
          (vs.filter (fun v => v.option_id == o.id)).length)).sum = vs.length := by
        have hmm : opts.map (fun o => (vs.filter (fun v => v.option_id == o.id)).length)
            = (opts.map (fun o => o.id)).map (fun i =>
                (vs.filter (fun v => v.option_id == i)).length) := by
          rw [List.map_map]
          rfl
        rw [hmm]
        apply sum_filter_counts
        · rw [hopts]
          exact hnd
        · intro v hv
          rw [hvs] at hv
          have hv2 := List.mem_filter.mp hv
          have hand := hv2.2
          rw [Bool.and_eq_true] at hand
          have hpoll : v.poll_id = pollId := beq_iff_eq.mp hand.1
          obtain ⟨o, hoin, hopoll, hoid⟩ := href v hv2.1 hpoll
          rw [hopts]
          apply List.mem_map.mpr
          exact ⟨o, List.mem_filter.mpr ⟨hoin, beq_iff_eq.mpr hopoll⟩, hoid⟩
      rw [hcounts]
      have hne0 : ((vs.length : Nat) : ℚ) ≠ 0 := by
        have hpos : (0 : ℚ) < (vs.length : ℚ) := by
          exact_mod_cast hT
        exact ne_of_gt hpos
      field_simp

/-- C4, witness: bob votes for the first option, then re-votes for the
second; getUserVote then reports exactly the second option id. -/
theorem getUserVote_after_revote_witness :
    PollService.getUserVote
        (PollService.submitVote
            (PollService.submitVote dbBeforeBobVotes "p1" [uuidA] "bob" 5).2
            "p1" [uuidB] "bob" 6).2 "p1" "bob"
      = { hasVoted := true, optionIds := [uuidB] } :=
  (getUserVote_after_revote dbBeforeBobVotes "p1" "bob" [uuidA] [uuidB] 5 6
      (PollService.submitVote dbBeforeBobVotes "p1" [uuidA] "bob" 5).2
      (PollService.submitVote
          (PollService.submitVote dbBeforeBobVotes "p1" [uuidA] "bob" 5).2
          "p1" [uuidB] "bob" 6).2
      pollOne [optA, optB] (by decide) (by decide) (by decide) (by decide)).1

/-- C6, witness: on the fixture with two votes split over the two
options, the percentages returned by getStatistics sum to 100. -/
theorem getStatistics_percentages_witness :
    (PollRepository.getStatistics dbOneVoterTwoRows "p1").toOption.map
        (fun st => (st.optionStats.map (fun x => x.percentage)).sum) = some 100 := by
  have hfw : PollRepository.findWithOptions dbOneVoterTwoRows "p1"
      = some (pollOne, [optA, optB]) := by decide
  cases hcall : PollRepository.getStatistics dbOneVoterTwoRows "p1" with
  | error e =>
    exfalso
    unfold PollRepository.getStatistics at hcall
    rw [hfw] at hcall
    simp at hcall
  | ok st =>
    have hcall2 := hcall
    unfold PollRepository.getStatistics at hcall2
    rw [hfw] at hcall2
    dsimp only at hcall2
    have hinj := Except.ok.inj hcall2
    subst hinj
    have h := getStatistics_percentages dbOneVoterTwoRows "p1" _ hcall
        (by decide) (by decide)
    simp only [Except.toOption, Option.map]
    exact congrArg some (h.2.2 (by decide))

end PollApp
